import Mathlib

/-!
# FSM.h : a callback-table finite state machine

Shallow embedding of the class template `FSM<E, SIZE>` of `FSM.h`.

* A value of the enumeration `E` is its integral value, an `Int`.
* The three `std::vector<std::function<...>>` members are lists of optional
  handles: `none` is an empty `std::function` (the `{}` pushed by the
  constructors), `some h` a registered one.
* `operator[]` on a table is `slot`: outside the table it has no result.
* A callable is a function on the `World` outside the machine.  It receives
  its argument and, second, the value `GetCurrentState()` returns while it
  runs, which is all a callable can learn from the machine's public
  read-only interface.  Callables do not call back into the mutating
  members of the machine that is dispatching them.
* `FSMData*` values are addresses into `World.heap`; the machine only holds
  the address `m_data`, the records belong to the world.
* The `float` passed to `Update` is never computed with, so its type is the
  parameter `T`.
-/

namespace FSMSpec

/-- Modelled from the spec: the header `FSMData.h` is not part of the sources.
The persisted record mirrors the current state in a field `currentState` and
carries arbitrary further serialisable fields, gathered here in `rest`. -/
structure FSMData (X : Type) where
  currentState : Int
  rest : X

/-- Everything outside the machine: the externally owned records, by address,
and the rest of the program state that callables act on. -/
structure World (X U : Type) where
  heap : Nat → Option (FSMData X)
  env : U

/-- A non-empty `std::function<void(A)>`: argument, then the current state of
the dispatching machine as `GetCurrentState()` reports it during the call. -/
abbrev Handle (A X U : Type) := A → Int → World X U → World X U

/-- The data members of `FSM<E, SIZE>`.  `m_data = none` is the pointer the
constructors leave unassigned. -/
structure FSM (X U T : Type) where
  m_data : Option Nat
  m_currentState : Int
  m_beginFunctions : List (Option (Handle Int X U))
  m_endFunctions : List (Option (Handle Int X U))
  m_updateFunctions : List (Option (Handle T X U))

/-- Why a member function did not run to its end. -/
inductive Fault where
  /-- a table indexed outside its bounds (undefined behaviour) -/
  | outOfRange
  /-- an empty `std::function` was called -/
  | emptyCall
  /-- `m_data` or the argument of `LoadFSM` does not point to a record -/
  | badRecord
  deriving DecidableEq, Repr

/-- Result of a member function: the machine and world after it returned, or
the fault together with the machine and world as they were when it struck. -/
abbrev Res (X U T : Type) := Except (Fault × FSM X U T × World X U) (FSM X U T × World X U)

variable {X U T : Type}

/-- Indexing `table[i]` of a vector by a state value: no result outside
`0 ≤ i < table.size()`. -/
def slot {H : Type} (table : List (Option H)) (i : Int) : Option (Option H) :=
  if i < 0 then none else table.get? i.toNat

/-- Assignment `table[i] = h`: no result outside the bounds. -/
def setSlot {H : Type} (table : List (Option H)) (i : Int) (h : Option H) :
    Option (List (Option H)) :=
  if i < 0 then none
  else if i.toNat < table.length then some (table.set i.toNat h) else none

/-- The loop shared by both constructors: `n` rounds, each pushing one empty
function onto each of the three tables. -/
def pushEmpty : Nat → FSM X U T → FSM X U T
  | 0, m => m
  | n + 1, m =>
    pushEmpty n
      { m with
        m_beginFunctions := m.m_beginFunctions ++ [none]
        m_endFunctions := m.m_endFunctions ++ [none]
        m_updateFunctions := m.m_updateFunctions ++ [none] }

/-- The members as they are before a constructor body runs: empty vectors,
`m_data` unassigned.  The value of `m_currentState` is overwritten by both
constructors. -/
def blank : FSM X U T :=
  { m_data := none, m_currentState := 0, m_beginFunctions := [],
    m_endFunctions := [], m_updateFunctions := [] }

/-- Constructor `FSM<E, SIZE>::FSM()`. -/
def Construct (SIZE : Int) (w : World X U) : FSM X U T × World X U :=
  ({ pushEmpty SIZE.toNat (blank : FSM X U T) with m_currentState := 0 }, w)

/-- Constructor `FSM<E, SIZE>::FSM(E startingState)`. -/
def ConstructWith (SIZE : Int) (startingState : Int) (w : World X U) : FSM X U T × World X U :=
  ({ pushEmpty SIZE.toNat (blank : FSM X U T) with m_currentState := startingState }, w)

/-- Member function `FSM<E, SIZE>::GetCurrentState`. -/
def GetCurrentState (m : FSM X U T) : Int :=
  m.m_currentState

/-- Member function `FSM<E, SIZE>::SetState`. -/
def SetState (m : FSM X U T) (newState : Int) (w : World X U) : Res X U T :=
  match slot m.m_endFunctions m.m_currentState with
  | none => .error (.outOfRange, m, w)
  | some none => .error (.emptyCall, m, w)
  | some (some endFunction) =>
    let w1 := endFunction newState (GetCurrentState m) w
    match slot m.m_beginFunctions newState with
    | none => .error (.outOfRange, m, w1)
    | some none => .error (.emptyCall, m, w1)
    | some (some beginFunction) =>
      let w2 := beginFunction m.m_currentState (GetCurrentState m) w1
      .ok ({ m with m_currentState := newState }, w2)

/-- Member function `FSM<E, SIZE>::Update`. -/
def Update (m : FSM X U T) (deltaSeconds : T) (w : World X U) : Res X U T :=
  match slot m.m_updateFunctions m.m_currentState with
  | none => .error (.outOfRange, m, w)
  | some none => .error (.emptyCall, m, w)
  | some (some updateFunction) => .ok (m, updateFunction deltaSeconds (GetCurrentState m) w)

/-- Member function `FSM<E, SIZE>::SaveFSM`; the returned pointer is the first component. -/
def SaveFSM (m : FSM X U T) (w : World X U) :
    Except (Fault × FSM X U T × World X U) (Nat × FSM X U T × World X U) :=
  match m.m_data with
  | none => .error (.badRecord, m, w)
  | some p =>
    match w.heap p with
    | none => .error (.badRecord, m, w)
    | some r =>
      .ok (p, m,
        { w with heap := fun a =>
            if a = p then some { r with currentState := m.m_currentState } else w.heap a })

/-- Member function `FSM<E, SIZE>::LoadFSM`. -/
def LoadFSM (m : FSM X U T) (newData : Nat) (w : World X U) : Res X U T :=
  match m.m_data with
  | none => .error (.badRecord, m, w)
  | some p =>
    match w.heap p with
    | none => .error (.badRecord, m, w)
    | some own =>
      let m1 := { m with m_currentState := own.currentState }
      match w.heap newData with
      | none => .error (.badRecord, m1, w)
      | some src => .ok (m1, { w with heap := fun a => if a = p then some src else w.heap a })

/-- Member function `FSM<E, SIZE>::SetBeginStateFunction`. -/
def SetBeginStateFunction (m : FSM X U T) (state : Int) (newBeginFunction : Option (Handle Int X U))
    (w : World X U) : Res X U T :=
  match setSlot m.m_beginFunctions state newBeginFunction with
  | none => .error (.outOfRange, m, w)
  | some t => .ok ({ m with m_beginFunctions := t }, w)

/-- Member function `FSM<E, SIZE>::SetEndStateFunction`. -/
def SetEndStateFunction (m : FSM X U T) (state : Int) (newEndFunction : Option (Handle Int X U))
    (w : World X U) : Res X U T :=
  match setSlot m.m_endFunctions state newEndFunction with
  | none => .error (.outOfRange, m, w)
  | some t => .ok ({ m with m_endFunctions := t }, w)

/-- Member function `FSM<E, SIZE>::SetUpdateFunction`. -/
def SetUpdateFunction (m : FSM X U T) (state : Int) (newUpdateFunction : Option (Handle T X U))
    (w : World X U) : Res X U T :=
  match setSlot m.m_updateFunctions state newUpdateFunction with
  | none => .error (.outOfRange, m, w)
  | some t => .ok ({ m with m_updateFunctions := t }, w)

/-- A derived class, or whoever owns the machine, pointing the protected
member `m_data` at a record. -/
def assignData (m : FSM X U T) (p : Nat) (w : World X U) : Res X U T :=
  .ok ({ m with m_data := some p }, w)

/-- One call on a machine, by the owner or by a derived class. -/
inductive Op (X U T : Type) where
  | setState (newState : Int)
  | update (deltaSeconds : T)
  | save
  | load (newData : Nat)
  | setBegin (state : Int) (f : Option (Handle Int X U))
  | setEnd (state : Int) (f : Option (Handle Int X U))
  | setUpdate (state : Int) (f : Option (Handle T X U))
  | assign (p : Nat)

/-- The member function an `Op` stands for, run on a machine and a world. -/
def Op.run : Op X U T → FSM X U T → World X U → Res X U T
  | .setState s, m, w => SetState m s w
  | .update dt, m, w => Update m dt w
  | .save, m, w => (SaveFSM m w).map fun r => r.2
  | .load p, m, w => LoadFSM m p w
  | .setBegin s f, m, w => SetBeginStateFunction m s f w
  | .setEnd s f, m, w => SetEndStateFunction m s f w
  | .setUpdate s f, m, w => SetUpdateFunction m s f w
  | .assign p, m, w => assignData m p w

/-- Histories of a machine.  `Steps G c c'` : from configuration `c` the
configuration `c'` is reached by calls that each satisfy `G` when made.  A call
either returns (`call`) or throws on an empty `std::function`, the exception
being caught by the caller (`caught`); between calls the caller may change its
own world, records included (`outside`). -/
inductive Steps (G : Op X U T → FSM X U T → World X U → Prop) :
    FSM X U T × World X U → FSM X U T × World X U → Prop where
  | refl (c : FSM X U T × World X U) : Steps G c c
  | call {c c' : FSM X U T × World X U} {m : FSM X U T} {w : World X U} (op : Op X U T) :
      Steps G c (m, w) → G op m w → op.run m w = .ok c' → Steps G c c'
  | caught {c c' : FSM X U T × World X U} {m : FSM X U T} {w : World X U} (op : Op X U T) :
      Steps G c (m, w) → G op m w → op.run m w = .error (Fault.emptyCall, c') → Steps G c c'
  | outside {c : FSM X U T × World X U} {m : FSM X U T} {w : World X U} (w' : World X U) :
      Steps G c (m, w) → Steps G c (m, w')

/-- No restriction on the calls made. -/
def anyCall : Op X U T → FSM X U T → World X U → Prop :=
  fun _ _ _ => True

/-- Restriction on `LoadFSM` only: when it is called, the record `m_data`
points to holds a state value in `[0, SIZE)`. -/
def loadInRange (SIZE : Int) : Op X U T → FSM X U T → World X U → Prop
  | .load _, m, w =>
      ∀ p r, m.m_data = some p → w.heap p = some r → 0 ≤ r.currentState ∧ r.currentState < SIZE
  | _, _, _ => True

/-- Restriction: the begin function of `state` is not registered again. -/
def keepsBegin (state : Int) : Op X U T → FSM X U T → World X U → Prop
  | .setBegin s _, _, _ => s ≠ state
  | _, _, _ => True

/-- Restriction: the end function of `state` is not registered again. -/
def keepsEnd (state : Int) : Op X U T → FSM X U T → World X U → Prop
  | .setEnd s _, _, _ => s ≠ state
  | _, _, _ => True

/-- Restriction: the update function of `state` is not registered again. -/
def keepsUpdate (state : Int) : Op X U T → FSM X U T → World X U → Prop
  | .setUpdate s _, _, _ => s ≠ state
  | _, _, _ => True

/-- All three tables have `n` slots. -/
def Sized (n : Nat) (m : FSM X U T) : Prop :=
  m.m_beginFunctions.length = n ∧ m.m_endFunctions.length = n ∧ m.m_updateFunctions.length = n

/-! ### A three-state machine used for concrete runs -/

/-- State `IDLE` of the example enumeration. -/
def IDLE : Int := 0
/-- State `RUNNING` of the example enumeration. -/
def RUNNING : Int := 1
/-- State `DONE` of the example enumeration. -/
def DONE : Int := 2

/-- A world without records whose program state is a log of lines. -/
def logWorld : World Unit (List String) :=
  { heap := fun _ => none, env := [] }

/-- A callable that appends `line` to the log. -/
def say {A : Type} (line : String) : Handle A Unit (List String) :=
  fun _ _ w => { w with env := w.env ++ [line] }

/-- Constructed in `IDLE`, then `onExit[IDLE]` and `onEnter[RUNNING]` registered. -/
def demoSetup : Res Unit (List String) Int :=
  let c : FSM Unit (List String) Int × World Unit (List String) := ConstructWith 3 IDLE logWorld
  (SetEndStateFunction c.1 IDLE (some (say "exit-idle")) c.2).bind fun c1 =>
    SetBeginStateFunction c1.1 RUNNING (some (say "enter-running")) c1.2

/-- The configuration a `Res` ends in, returned or faulted. -/
def Res.config (r : Res X U T) : FSM X U T × World X U :=
  match r with
  | .ok c => c
  | .error e => e.2

/-- The machine of `demoSetup`. -/
def demoFSM : FSM Unit (List String) Int := (Res.config demoSetup).1

/-- A world without records whose program state is a list of numbers. -/
def tickWorld : World Unit (List Int) :=
  { heap := fun _ => none, env := [] }

/-- An update callable that appends the elapsed time it is given. -/
def tick : Handle Int Unit (List Int) :=
  fun dt _ w => { w with env := w.env ++ [dt] }

/-- Constructed in `DONE`, then `onUpdate[DONE]` registered; time is an `Int`. -/
def tickFSM : FSM Unit (List Int) Int :=
  (Res.config
    (SetUpdateFunction (ConstructWith 3 DONE tickWorld : FSM Unit (List Int) Int × _).1
      DONE (some tick) tickWorld)).1

/-- Two records: at address 0 one with state `IDLE` and payload 7, at address 1
one with state `IDLE` and no payload. -/
def recordWorld : World (List Int) Unit :=
  { heap := fun a =>
      if a = 0 then some { currentState := IDLE, rest := [7] }
      else if a = 1 then some { currentState := IDLE, rest := [] }
      else none
    env := () }

/-- A machine constructed in `DONE` whose `m_data` is the record at address 0. -/
def savingFSM : FSM (List Int) Unit Int :=
  { (ConstructWith 3 DONE recordWorld : FSM (List Int) Unit Int × _).1 with m_data := some 0 }

/-- A freshly default-constructed machine whose `m_data` is the record at
address 1. -/
def loadingFSM : FSM (List Int) Unit Int :=
  { (Construct 3 recordWorld : FSM (List Int) Unit Int × _).1 with m_data := some 1 }

/-- The world after `savingFSM` has saved into its record. -/
def savedWorld : World (List Int) Unit :=
  match SaveFSM savingFSM recordWorld with
  | .ok r => r.2.2
  | .error e => e.2.2

/-- One record, at address 0, whose `currentState` field holds 5. -/
def strayWorld : World (List Int) Unit :=
  { heap := fun a => if a = 0 then some { currentState := 5, rest := [] } else none
    env := () }

/-- An update callable that appends the elapsed time it is given, twice. -/
def tickTwice : Handle Int Unit (List Int) :=
  fun dt _ w => { w with env := w.env ++ [dt, dt] }

/-- The machine `demoFSM` after `onEnter[RUNNING]` was registered twice more,
first logging old, then logging new. -/
def beginTwice : FSM Unit (List String) Int × World Unit (List String) :=
  Res.config
    (SetBeginStateFunction
      (Res.config (SetBeginStateFunction demoFSM RUNNING (some (say "old")) logWorld)).1
      RUNNING (some (say "new")) logWorld)

/-- The machine `demoFSM` after `onExit[IDLE]` was registered twice more,
first logging old, then logging new. -/
def endTwice : FSM Unit (List String) Int × World Unit (List String) :=
  Res.config
    (SetEndStateFunction
      (Res.config (SetEndStateFunction demoFSM IDLE (some (say "old")) logWorld)).1
      IDLE (some (say "new")) logWorld)

/-- The machine `tickFSM` after `onUpdate[DONE]` was registered twice more,
first `tick`, then `tickTwice`. -/
def updateTwice : FSM Unit (List Int) Int × World Unit (List Int) :=
  Res.config
    (SetUpdateFunction
      (Res.config (SetUpdateFunction tickFSM DONE (some tick) tickWorld)).1
      DONE (some tickTwice) tickWorld)

/-- A world without records whose program state is a list of pairs. -/
def watchWorld : World Unit (List (Int × Int)) :=
  { heap := fun _ => none, env := [] }

/-- A callable that appends the pair of its argument and of the current state
it reads from the machine while it runs. -/
def observe : Handle Int Unit (List (Int × Int)) :=
  fun a cur w => { w with env := w.env ++ [(a, cur)] }

/-- Constructed in `IDLE`, then `observe` registered as `onExit[IDLE]`,
`onEnter[RUNNING]` and `onEnter[IDLE]`. -/
def watchSetup : Res Unit (List (Int × Int)) Int :=
  let c : FSM Unit (List (Int × Int)) Int × World Unit (List (Int × Int)) :=
    ConstructWith 3 IDLE watchWorld
  (SetEndStateFunction c.1 IDLE (some observe) c.2).bind fun c1 =>
    (SetBeginStateFunction c1.1 RUNNING (some observe) c1.2).bind fun c2 =>
      SetBeginStateFunction c2.1 IDLE (some observe) c2.2

/-- The machine of `watchSetup`. -/
def watchFSM : FSM Unit (List (Int × Int)) Int := (Res.config watchSetup).1

/-- Three records: at address 0 one holding `IDLE`, at address 1 one holding
`RUNNING` with payload 1, at address 2 one holding `DONE` with payload 2. -/
def threeRecords : World (List Int) Unit :=
  { heap := fun a =>
      if a = 0 then some { currentState := IDLE, rest := [] }
      else if a = 1 then some { currentState := RUNNING, rest := [1] }
      else if a = 2 then some { currentState := DONE, rest := [2] }
      else none
    env := () }

/-- A default-constructed machine whose `m_data` is the record at address 0. -/
def lateFSM : FSM (List Int) Unit Int :=
  { (Construct 3 threeRecords : FSM (List Int) Unit Int × _).1 with m_data := some 0 }

/-- The state arguments of a call, if it has any, lie in `[0, SIZE)`. -/
def Op.argInRange (SIZE : Int) : Op X U T → Prop
  | .setState s => 0 ≤ s ∧ s < SIZE
  | .setBegin s _ => 0 ≤ s ∧ s < SIZE
  | .setEnd s _ => 0 ≤ s ∧ s < SIZE
  | .setUpdate s _ => 0 ≤ s ∧ s < SIZE
  | _ => True

/-- The default-constructed three-state machine after `m_data` was pointed at
the record of `strayWorld` and that record was loaded. -/
def strayConfig : FSM (List Int) Unit Int × World (List Int) Unit :=
  Res.config (LoadFSM
    { (Construct 3 strayWorld : FSM (List Int) Unit Int × _).1 with m_data := some 0 }
    0 strayWorld)

/-! ## Basic facts about tables -/

theorem slot_some_iff {H : Type} (table : List (Option H)) (i : Int) (x : Option H) :
    slot table i = some x ↔ 0 ≤ i ∧ table.get? i.toNat = some x := by
  unfold slot
  by_cases h : i < 0
  · have h' : ¬ 0 ≤ i := by omega
    simp [h, h']
  · have h' : 0 ≤ i := by omega
    simp [h, h']

theorem slot_none_iff {H : Type} (table : List (Option H)) (i : Int) :
    slot table i = none ↔ i < 0 ∨ (table.length : Int) ≤ i := by
  unfold slot
  by_cases h : i < 0
  · simp [h]
  · simp [h, List.get?_eq_none]
    omega

theorem slot_inRange {H : Type} (table : List (Option H)) (i : Int)
    (h0 : 0 ≤ i) (h1 : i < table.length) : ∃ x, slot table i = some x := by
  cases hs : slot table i with
  | none =>
    rw [slot_none_iff] at hs
    omega
  | some x => exact ⟨x, rfl⟩

/-! ## Transitions, construction, ticks -/

/-- What `SetState` computes when both slots hold a function. -/
theorem SetState_registered (m : FSM X U T) (B : Int) (w : World X U)
    (exitA enterB : Handle Int X U)
    (hA : slot m.m_endFunctions m.m_currentState = some (some exitA))
    (hB : slot m.m_beginFunctions B = some (some enterB)) :
    SetState m B w
      = .ok ({ m with m_currentState := B },
          enterB m.m_currentState m.m_currentState (exitA B m.m_currentState w)) := by
  simp [SetState, hA, hB, GetCurrentState]

/-- What `Update` computes when the slot holds a function. -/
theorem Update_registered (m : FSM X U T) (dt : T) (w : World X U) (updateS : Handle T X U)
    (hS : slot m.m_updateFunctions m.m_currentState = some (some updateS)) :
    Update m dt w = .ok (m, updateS dt m.m_currentState w) := by
  simp [Update, hS, GetCurrentState]

/-- C1: with the machine in state A, the end function of A and the begin
function of B both registered, SetState(B) returns; the world it leaves is the
one obtained by running the end function of A on argument B and then the begin
function of B on argument A, nothing else; the machine differs only in its
current state, which is B. -/
theorem SetState_dispatch (m : FSM X U T) (B : Int) (w : World X U)
    (exitA enterB : Handle Int X U)
    (hA : slot m.m_endFunctions (GetCurrentState m) = some (some exitA))
    (hB : slot m.m_beginFunctions B = some (some enterB)) :
    SetState m B w
        = .ok ({ m with m_currentState := B },
            enterB (GetCurrentState m) (GetCurrentState m)
              (exitA B (GetCurrentState m) w))
      ∧ GetCurrentState ({ m with m_currentState := B } : FSM X U T) = B := by
  exact ⟨SetState_registered m B w exitA enterB hA hB, rfl⟩

/-- C1, concrete run: states IDLE, RUNNING, DONE; constructed in IDLE with the
two logging callables registered; SetState(RUNNING) leaves the log
exit-idle, enter-running and the current state RUNNING. -/
theorem SetState_dispatch_demo :
    slot demoFSM.m_endFunctions (GetCurrentState demoFSM) = some (some (say "exit-idle"))
      ∧ slot demoFSM.m_beginFunctions RUNNING = some (some (say "enter-running"))
      ∧ (Res.config (SetState demoFSM RUNNING logWorld)).2.env = ["exit-idle", "enter-running"]
      ∧ GetCurrentState (Res.config (SetState demoFSM RUNNING logWorld)).1 = RUNNING
      ∧ ∃ c, SetState demoFSM RUNNING logWorld = .ok c :=
  have h := SetState_dispatch demoFSM RUNNING logWorld (say "exit-idle") (say "enter-running")
    rfl rfl
  ⟨rfl, rfl, by rw [h.1]; rfl, by rw [h.1]; rfl, _, h.1⟩

/-- C2: right after FSM(startingState) the current state is startingState, right
after FSM() it is 0, and both constructors leave the world as it was: no
callable has run. -/
theorem Construct_currentState (SIZE startingState : Int) (w : World X U) :
    GetCurrentState (ConstructWith SIZE startingState w : FSM X U T × World X U).1 = startingState
      ∧ (ConstructWith SIZE startingState w : FSM X U T × World X U).2 = w
      ∧ GetCurrentState (Construct SIZE w : FSM X U T × World X U).1 = 0
      ∧ (Construct SIZE w : FSM X U T × World X U).2 = w :=
  ⟨rfl, rfl, rfl, rfl⟩

/-- C3: with the update function of the current state S registered, Update(dt)
returns; the world it leaves is the one obtained by running that one function
on dt as given, and the machine, its current state included, is unchanged. -/
theorem Update_dispatch (m : FSM X U T) (dt : T) (w : World X U) (updateS : Handle T X U)
    (hS : slot m.m_updateFunctions (GetCurrentState m) = some (some updateS)) :
    Update m dt w = .ok (m, updateS dt (GetCurrentState m) w)
      ∧ ∀ c, Update m dt w = .ok c → GetCurrentState c.1 = GetCurrentState m := by
  have h := Update_registered m dt w updateS hS
  refine ⟨h, ?_⟩
  intro c hc
  rw [h] at hc
  cases hc
  rfl


/-- C3, concrete run: a negative elapsed time reaches the update function of
DONE as it is, once, and the machine stays in DONE. -/
theorem Update_dispatch_demo :
    slot tickFSM.m_updateFunctions (GetCurrentState tickFSM) = some (some tick)
      ∧ (Res.config (Update tickFSM (-5) tickWorld)).2.env = [-5]
      ∧ GetCurrentState (Res.config (Update tickFSM (-5) tickWorld)).1 = DONE
      ∧ ∃ c, Update tickFSM (-5) tickWorld = .ok c :=
  have h := Update_dispatch tickFSM (-5) tickWorld tick rfl
  ⟨rfl, by rw [h.1]; rfl, by rw [h.1]; rfl, _, h.1⟩

/-! ## Persistence -/

/-- C4, the code at a failing input: a machine in DONE saves into its record
(address 0); a new default-constructed machine, owning the record at address 1
that holds IDLE, loads the saved record.  The saved record does hold DONE, yet
the new machine ends in IDLE, the stale value of its own record; without a
record of its own the load does not return at all. -/
theorem LoadFSM_after_SaveFSM_stale :
    (∃ w, SaveFSM savingFSM recordWorld = .ok (0, savingFSM, w) ∧ w = savedWorld)
      ∧ GetCurrentState savingFSM = DONE
      ∧ (savedWorld.heap 0).map (fun r => r.currentState) = some DONE
      ∧ (∃ c, LoadFSM loadingFSM 0 savedWorld = .ok c)
      ∧ GetCurrentState (Res.config (LoadFSM loadingFSM 0 savedWorld)).1 = IDLE
      ∧ IDLE ≠ DONE
      ∧ (∃ c, LoadFSM (Construct 3 savedWorld : FSM (List Int) Unit Int × _).1 0 savedWorld
            = .error (Fault.badRecord, c)) :=
  ⟨⟨_, rfl, rfl⟩, rfl, rfl, ⟨_, rfl⟩, rfl, by decide, ⟨_, rfl⟩⟩

/-- C5: on a machine whose m_data points to a record, LoadFSM(src) returns; the
current state is then the currentState the machine's own record held before the
call (hence not the one of src when the two differ), m_data is unchanged, and
the record it points to equals src in every field. -/
theorem LoadFSM_reads_own (m : FSM X U T) (p q : Nat) (w : World X U) (own src : FSMData X)
    (hp : m.m_data = some p) (hown : w.heap p = some own) (hsrc : w.heap q = some src) :
    ∃ m' w', LoadFSM m q w = .ok (m', w')
      ∧ GetCurrentState m' = own.currentState
      ∧ (own.currentState ≠ src.currentState → GetCurrentState m' ≠ src.currentState)
      ∧ m'.m_data = some p
      ∧ w'.heap p = some src := by
  refine ⟨{ m with m_currentState := own.currentState },
    { w with heap := fun a => if a = p then some src else w.heap a }, ?_, rfl, ?_, hp, ?_⟩
  · simp [LoadFSM, hp, hown, hsrc]
  · intro h
    exact h
  · simp

/-- C5, concrete run: the machine owning the record at address 1 (state IDLE)
loads the record at address 0 (state DONE, payload 7). -/
theorem LoadFSM_reads_own_demo :
    loadingFSM.m_data = some 1
      ∧ savedWorld.heap 1 = some { currentState := IDLE, rest := [] }
      ∧ savedWorld.heap 0 = some { currentState := DONE, rest := [7] }
      ∧ ∃ m' w', LoadFSM loadingFSM 0 savedWorld = .ok (m', w')
          ∧ GetCurrentState m' = IDLE
          ∧ (IDLE ≠ DONE → GetCurrentState m' ≠ DONE)
          ∧ m'.m_data = some 1
          ∧ w'.heap 1 = some { currentState := DONE, rest := [7] } :=
  ⟨rfl, rfl, rfl,
    LoadFSM_reads_own loadingFSM 1 0 savedWorld { currentState := IDLE, rest := [] }
      { currentState := DONE, rest := [7] } rfl rfl rfl⟩

/-- C6: on a machine whose m_data points to a record, SaveFSM returns that same
pointer; the record now holds the machine's current state in currentState and
is otherwise as before; every other record, the rest of the world and the
whole machine (current state and the three tables) are unchanged. -/
theorem SaveFSM_frame (m : FSM X U T) (p : Nat) (w : World X U) (r : FSMData X)
    (hp : m.m_data = some p) (hr : w.heap p = some r) :
    ∃ w', SaveFSM m w = .ok (p, m, w')
      ∧ w'.heap p = some { currentState := GetCurrentState m, rest := r.rest }
      ∧ (∀ a, a ≠ p → w'.heap a = w.heap a)
      ∧ w'.env = w.env := by
  refine ⟨{ w with heap := fun a =>
      if a = p then some { r with currentState := m.m_currentState } else w.heap a },
    ?_, ?_, ?_, rfl⟩
  · simp [SaveFSM, hp, hr]
  · simp [GetCurrentState]
  · intro a ha
    simp [ha]

/-- C6, concrete run: the machine in DONE saves into the record at address 0,
whose payload 7 stays; the record at address 1 is untouched. -/
theorem SaveFSM_frame_demo :
    savingFSM.m_data = some 0
      ∧ recordWorld.heap 0 = some { currentState := IDLE, rest := [7] }
      ∧ ∃ w', SaveFSM savingFSM recordWorld = .ok (0, savingFSM, w')
          ∧ w'.heap 0 = some { currentState := GetCurrentState savingFSM, rest := [7] }
          ∧ (∀ a, a ≠ 0 → w'.heap a = recordWorld.heap a)
          ∧ w'.env = recordWorld.env :=
  ⟨rfl, rfl, SaveFSM_frame savingFSM 0 recordWorld { currentState := IDLE, rest := [7] } rfl rfl⟩


/-! ## Table sizes and the range of the current state -/

theorem pushEmpty_length (n : Nat) (m : FSM X U T) :
    (pushEmpty n m).m_beginFunctions.length = m.m_beginFunctions.length + n
      ∧ (pushEmpty n m).m_endFunctions.length = m.m_endFunctions.length + n
      ∧ (pushEmpty n m).m_updateFunctions.length = m.m_updateFunctions.length + n := by
  induction n generalizing m with
  | zero => simp [pushEmpty]
  | succ k ih =>
    obtain ⟨h1, h2, h3⟩ := ih
      { m with
        m_beginFunctions := m.m_beginFunctions ++ [none]
        m_endFunctions := m.m_endFunctions ++ [none]
        m_updateFunctions := m.m_updateFunctions ++ [none] }
    simp only [pushEmpty]
    simp only [List.length_append, List.length_singleton] at h1 h2 h3
    omega

theorem ConstructWith_sized (SIZE s : Int) (w : World X U) :
    Sized SIZE.toNat (ConstructWith SIZE s w : FSM X U T × World X U).1 := by
  have h := pushEmpty_length SIZE.toNat (blank : FSM X U T)
  simpa [Sized, ConstructWith, blank] using h

theorem Construct_sized (SIZE : Int) (w : World X U) :
    Sized SIZE.toNat (Construct SIZE w : FSM X U T × World X U).1 :=
  ConstructWith_sized SIZE 0 w

theorem setSlot_length {H : Type} (t t' : List (Option H)) (i : Int) (h : Option H)
    (hs : setSlot t i h = some t') : t'.length = t.length := by
  unfold setSlot at hs
  split at hs
  · cases hs
  · split at hs
    · cases hs
      simp
    · cases hs

/-- A call that returns leaves the three tables with the size they had. -/
theorem run_ok_sized (n : Nat) (op : Op X U T) (m m' : FSM X U T) (w w' : World X U)
    (hm : Sized n m) (h : op.run m w = .ok (m', w')) : Sized n m' := by
  obtain ⟨hb, he, hu⟩ := hm
  cases op with
  | setState s =>
    simp only [Op.run, SetState] at h
    split at h <;> try cases h
    split at h <;> cases h
    exact ⟨hb, he, hu⟩
  | update dt =>
    simp only [Op.run, Update] at h
    split at h <;> cases h
    exact ⟨hb, he, hu⟩
  | save =>
    simp only [Op.run, SaveFSM] at h
    split at h
    · cases h
    · split at h <;> cases h
      exact ⟨hb, he, hu⟩
  | load p =>
    simp only [Op.run, LoadFSM] at h
    split at h
    · cases h
    · split at h
      · cases h
      · split at h <;> cases h
        exact ⟨hb, he, hu⟩
  | setBegin s f =>
    simp only [Op.run, SetBeginStateFunction] at h
    split at h
    · cases h
    · rename_i t ht
      cases h
      exact ⟨(setSlot_length _ _ _ _ ht).trans hb, he, hu⟩
  | setEnd s f =>
    simp only [Op.run, SetEndStateFunction] at h
    split at h
    · cases h
    · rename_i t ht
      cases h
      exact ⟨hb, (setSlot_length _ _ _ _ ht).trans he, hu⟩
  | setUpdate s f =>
    simp only [Op.run, SetUpdateFunction] at h
    split at h
    · cases h
    · rename_i t ht
      cases h
      exact ⟨hb, he, (setSlot_length _ _ _ _ ht).trans hu⟩
  | assign p =>
    simp only [Op.run, assignData] at h
    cases h
    exact ⟨hb, he, hu⟩

/-- A call that throws on an empty function leaves the machine as it was. -/
theorem run_emptyCall_machine (op : Op X U T) (m m' : FSM X U T) (w w' : World X U)
    (h : op.run m w = .error (Fault.emptyCall, m', w')) : m' = m := by
  cases op with
  | setState s =>
    simp only [Op.run, SetState] at h
    split at h
    · cases h
    · cases h; rfl
    · split at h
      · cases h
      · cases h; rfl
      · cases h
  | update dt =>
    simp only [Op.run, Update] at h
    split at h
    · cases h
    · cases h; rfl
    · cases h
  | save =>
    simp only [Op.run, SaveFSM] at h
    split at h
    · cases h
    · split at h <;> cases h
  | load p =>
    simp only [Op.run, LoadFSM] at h
    split at h
    · cases h
    · split at h
      · cases h
      · split at h <;> cases h
  | setBegin s f =>
    simp only [Op.run, SetBeginStateFunction] at h
    split at h <;> cases h
  | setEnd s f =>
    simp only [Op.run, SetEndStateFunction] at h
    split at h <;> cases h
  | setUpdate s f =>
    simp only [Op.run, SetUpdateFunction] at h
    split at h <;> cases h
  | assign p =>
    simp only [Op.run, assignData] at h
    cases h


/-- A returning call keeps the current state inside `[0, SIZE)`, provided a
`LoadFSM` is only made while the machine's record holds such a state. -/
theorem run_ok_inRange (SIZE : Int) (op : Op X U T) (m m' : FSM X U T) (w w' : World X U)
    (hm : Sized SIZE.toNat m) (hc : 0 ≤ m.m_currentState ∧ m.m_currentState < SIZE)
    (hg : loadInRange SIZE op m w) (h : op.run m w = .ok (m', w')) :
    0 ≤ m'.m_currentState ∧ m'.m_currentState < SIZE := by
  cases op with
  | setState s =>
    simp only [Op.run, SetState] at h
    split at h <;> try cases h
    split at h <;> try cases h
    rename_i f hf
    obtain ⟨h0, hget⟩ := (slot_some_iff _ _ _).1 hf
    have hlt : s.toNat < m.m_beginFunctions.length := by
      rcases Nat.lt_or_ge s.toNat m.m_beginFunctions.length with hl | hl
      · exact hl
      · rw [List.get?_eq_none.2 hl] at hget
        cases hget
    have hb := hm.1
    constructor
    · exact h0
    · show s < SIZE
      omega
  | update dt =>
    simp only [Op.run, Update] at h
    split at h <;> cases h
    exact hc
  | save =>
    simp only [Op.run, SaveFSM] at h
    split at h
    · cases h
    · split at h <;> cases h
      exact hc
  | load p =>
    simp only [Op.run, LoadFSM] at h
    split at h
    · cases h
    · rename_i q hq
      split at h
      · cases h
      · rename_i own hown
        split at h <;> cases h
        exact hg q own hq hown
  | setBegin s f =>
    simp only [Op.run, SetBeginStateFunction] at h
    split at h <;> cases h
    exact hc
  | setEnd s f =>
    simp only [Op.run, SetEndStateFunction] at h
    split at h <;> cases h
    exact hc
  | setUpdate s f =>
    simp only [Op.run, SetUpdateFunction] at h
    split at h <;> cases h
    exact hc
  | assign p =>
    simp only [Op.run, assignData] at h
    cases h
    exact hc

/-- The invariant along histories in which loads are guarded. -/
theorem steps_inRange (SIZE : Int) (c0 c : FSM X U T × World X U)
    (h : Steps (loadInRange SIZE) c0 c)
    (h0 : Sized SIZE.toNat c0.1 ∧ 0 ≤ c0.1.m_currentState ∧ c0.1.m_currentState < SIZE) :
    Sized SIZE.toNat c.1 ∧ 0 ≤ c.1.m_currentState ∧ c.1.m_currentState < SIZE := by
  induction h with
  | refl => exact h0
  | @call c' m w op _ hg hrun ih =>
    obtain ⟨m', w'⟩ := c'
    exact ⟨run_ok_sized _ op m m' w w' ih.1 hrun,
      run_ok_inRange SIZE op m m' w w' ih.1 ih.2 hg hrun⟩
  | @caught c' m w op _ hg hrun ih =>
    obtain ⟨m', w'⟩ := c'
    have hmm : m' = m := run_emptyCall_machine op m m' w w' hrun
    subst hmm
    exact ih
  | outside w' _ ih => exact ih

/-- C7, as stated, fails on the code: with three states, (1) a
default-constructed machine whose record holds 5 is in state 5 after LoadFSM,
(2) a machine constructed with starting state 7 is in state 7, and (3) with no
states at all the default-constructed machine is in state 0, outside the
empty range. -/
theorem currentState_escapes :
    (∃ m w, Steps anyCall (Construct 3 strayWorld : FSM (List Int) Unit Int × _) (m, w)
        ∧ GetCurrentState m = 5 ∧ ¬ GetCurrentState m < 3)
      ∧ (∃ m w, Steps anyCall (ConstructWith 3 7 strayWorld : FSM (List Int) Unit Int × _) (m, w)
        ∧ GetCurrentState m = 7 ∧ ¬ GetCurrentState m < 3)
      ∧ (∃ m w, Steps anyCall (Construct 0 strayWorld : FSM (List Int) Unit Int × _) (m, w)
        ∧ GetCurrentState m = 0 ∧ ¬ GetCurrentState m < 0) := by
  refine ⟨?_, ⟨_, _, Steps.refl _, rfl, by decide⟩, ⟨_, _, Steps.refl _, rfl, by decide⟩⟩
  have s0 : Steps anyCall (Construct 3 strayWorld : FSM (List Int) Unit Int × _)
      ((Construct 3 strayWorld : FSM (List Int) Unit Int × _).1, strayWorld) := Steps.refl _
  have s1 : Steps anyCall (Construct 3 strayWorld : FSM (List Int) Unit Int × _)
      (Res.config (assignData (Construct 3 strayWorld : FSM (List Int) Unit Int × _).1 0
        strayWorld)) :=
    Steps.call (Op.assign 0) s0 trivial rfl
  have s2 : Steps anyCall (Construct 3 strayWorld : FSM (List Int) Unit Int × _)
      ((Res.config (LoadFSM
          { (Construct 3 strayWorld : FSM (List Int) Unit Int × _).1 with m_data := some 0 }
          0 strayWorld)).1,
        (Res.config (LoadFSM
          { (Construct 3 strayWorld : FSM (List Int) Unit Int × _).1 with m_data := some 0 }
          0 strayWorld)).2) :=
    Steps.call (Op.load 0) s1 trivial rfl
  exact ⟨_, _, s2, rfl, by decide⟩

/-- C7, amended: start from FSM(startingState) with startingState in range, or
from FSM() with at least one state; call SetState, Update, SaveFSM, the three
setters and the assignment of m_data freely, and LoadFSM only while the record
m_data points to holds a currentState in range.  Then in every configuration
reached, also after a caught empty-function exception and after the caller
changed its world, the current state is in range. -/
theorem currentState_inRange (SIZE s : Int) (w0 : World X U) (c0 : FSM X U T × World X U)
    (m : FSM X U T) (w : World X U)
    (hc : (c0 = ConstructWith SIZE s w0 ∧ 0 ≤ s ∧ s < SIZE) ∨ (c0 = Construct SIZE w0 ∧ 0 < SIZE))
    (h : Steps (loadInRange SIZE) c0 (m, w)) :
    0 ≤ GetCurrentState m ∧ GetCurrentState m < SIZE := by
  have h0 : Sized SIZE.toNat c0.1 ∧ 0 ≤ c0.1.m_currentState ∧ c0.1.m_currentState < SIZE := by
    rcases hc with ⟨rfl, h1, h2⟩ | ⟨rfl, h1⟩
    · exact ⟨ConstructWith_sized SIZE s w0, h1, h2⟩
    · exact ⟨Construct_sized SIZE w0, le_refl 0, h1⟩
  exact (steps_inRange SIZE c0 (m, w) h h0).2


/-- C7 amended, concrete run: three states, constructed in DONE, m_data set to
the record at address 0 (holding IDLE), then LoadFSM of the record at address
1: the machine ends in IDLE, inside the range. -/
theorem currentState_inRange_demo :
    ((ConstructWith 3 DONE recordWorld : FSM (List Int) Unit Int × _)
          = ConstructWith 3 DONE recordWorld ∧ 0 ≤ DONE ∧ DONE < 3)
      ∧ Steps (loadInRange 3) (ConstructWith 3 DONE recordWorld : FSM (List Int) Unit Int × _)
          ((Res.config (LoadFSM savingFSM 1 recordWorld)).1,
            (Res.config (LoadFSM savingFSM 1 recordWorld)).2)
      ∧ GetCurrentState (Res.config (LoadFSM savingFSM 1 recordWorld)).1 = IDLE
      ∧ 0 ≤ GetCurrentState (Res.config (LoadFSM savingFSM 1 recordWorld)).1
      ∧ GetCurrentState (Res.config (LoadFSM savingFSM 1 recordWorld)).1 < 3 := by
  have s0 : Steps (loadInRange 3) (ConstructWith 3 DONE recordWorld : FSM (List Int) Unit Int × _)
      ((ConstructWith 3 DONE recordWorld : FSM (List Int) Unit Int × _).1, recordWorld) :=
    Steps.refl _
  have s1 : Steps (loadInRange 3) (ConstructWith 3 DONE recordWorld : FSM (List Int) Unit Int × _)
      (savingFSM, recordWorld) :=
    Steps.call (Op.assign 0) s0 trivial rfl
  have g : loadInRange 3 (Op.load 1 : Op (List Int) Unit Int) savingFSM recordWorld := by
    intro p r hp hr
    have hp0 : p = 0 := by
      have : some (0 : Nat) = some p := hp
      cases this
      rfl
    subst hp0
    have hr0 : r = { currentState := IDLE, rest := [7] } := by
      have : some ({ currentState := IDLE, rest := [7] } : FSMData (List Int)) = some r := hr
      cases this
      rfl
    subst hr0
    exact ⟨by decide, by decide⟩
  have s2 : Steps (loadInRange 3) (ConstructWith 3 DONE recordWorld : FSM (List Int) Unit Int × _)
      ((Res.config (LoadFSM savingFSM 1 recordWorld)).1,
        (Res.config (LoadFSM savingFSM 1 recordWorld)).2) :=
    Steps.call (Op.load 1) s1 g rfl
  have h := currentState_inRange 3 DONE recordWorld _ _ _ (Or.inl ⟨rfl, by decide, by decide⟩) s2
  exact ⟨⟨rfl, by decide, by decide⟩, s2, rfl, h.1, h.2⟩


/-! ## Registration -/

theorem setSlot_slot_self {H : Type} (t t' : List (Option H)) (i : Int) (h : Option H)
    (hs : setSlot t i h = some t') : slot t' i = some h := by
  unfold setSlot at hs
  split at hs
  · cases hs
  · rename_i hi
    split at hs
    · rename_i hlt
      cases hs
      simp [slot, hi, List.getElem?_set, hlt]
    · cases hs

theorem setSlot_slot_other {H : Type} (t t' : List (Option H)) (i j : Int) (h : Option H)
    (hs : setSlot t i h = some t') (hij : j ≠ i) : slot t' j = slot t j := by
  unfold setSlot at hs
  split at hs
  · cases hs
  · rename_i hi
    split at hs
    · cases hs
      unfold slot
      by_cases hj : j < 0
      · simp [hj]
      · have hne : i.toNat ≠ j.toNat := by omega
        simp [hj, List.getElem?_set, hne]
    · cases hs

theorem setSlot_twice {H : Type} (t t1 t2 : List (Option H)) (i : Int) (h1 h2 : Option H)
    (hs1 : setSlot t i h1 = some t1) (hs2 : setSlot t1 i h2 = some t2) :
    setSlot t i h2 = some t2 := by
  have hlen := setSlot_length t t1 i h1 hs1
  unfold setSlot at hs1 hs2 ⊢
  split at hs1
  · cases hs1
  · rename_i hi
    split at hs1
    · rename_i hlt
      cases hs1
      simp only [hi, if_false, List.length_set, hlt, if_true, List.set_set] at hs2 ⊢
      exact hs2
    · cases hs1

/-- What a returning call does to the three tables: each is as before, unless
the call is the setter of that table, which assigns one slot. -/
theorem run_ok_tables (op : Op X U T) (m m' : FSM X U T) (w w' : World X U)
    (h : op.run m w = .ok (m', w')) :
    (m'.m_beginFunctions = m.m_beginFunctions
        ∨ ∃ s f, op = .setBegin s f ∧ setSlot m.m_beginFunctions s f = some m'.m_beginFunctions)
      ∧ (m'.m_endFunctions = m.m_endFunctions
        ∨ ∃ s f, op = .setEnd s f ∧ setSlot m.m_endFunctions s f = some m'.m_endFunctions)
      ∧ (m'.m_updateFunctions = m.m_updateFunctions
        ∨ ∃ s f, op = .setUpdate s f
            ∧ setSlot m.m_updateFunctions s f = some m'.m_updateFunctions) := by
  cases op with
  | setState s =>
    simp only [Op.run, SetState] at h
    split at h <;> try cases h
    split at h <;> cases h
    exact ⟨Or.inl rfl, Or.inl rfl, Or.inl rfl⟩
  | update dt =>
    simp only [Op.run, Update] at h
    split at h <;> cases h
    exact ⟨Or.inl rfl, Or.inl rfl, Or.inl rfl⟩
  | save =>
    simp only [Op.run, SaveFSM] at h
    split at h
    · cases h
    · split at h <;> cases h
      exact ⟨Or.inl rfl, Or.inl rfl, Or.inl rfl⟩
  | load p =>
    simp only [Op.run, LoadFSM] at h
    split at h
    · cases h
    · split at h
      · cases h
      · split at h <;> cases h
        exact ⟨Or.inl rfl, Or.inl rfl, Or.inl rfl⟩
  | setBegin s f =>
    simp only [Op.run, SetBeginStateFunction] at h
    split at h
    · cases h
    · rename_i t ht
      cases h
      exact ⟨Or.inr ⟨s, f, rfl, ht⟩, Or.inl rfl, Or.inl rfl⟩
  | setEnd s f =>
    simp only [Op.run, SetEndStateFunction] at h
    split at h
    · cases h
    · rename_i t ht
      cases h
      exact ⟨Or.inl rfl, Or.inr ⟨s, f, rfl, ht⟩, Or.inl rfl⟩
  | setUpdate s f =>
    simp only [Op.run, SetUpdateFunction] at h
    split at h
    · cases h
    · rename_i t ht
      cases h
      exact ⟨Or.inl rfl, Or.inl rfl, Or.inr ⟨s, f, rfl, ht⟩⟩
  | assign p =>
    simp only [Op.run, assignData] at h
    cases h
    exact ⟨Or.inl rfl, Or.inl rfl, Or.inl rfl⟩

theorem steps_keepsBegin (s : Int) (c c' : FSM X U T × World X U)
    (h : Steps (keepsBegin s) c c') :
    slot c'.1.m_beginFunctions s = slot c.1.m_beginFunctions s := by
  induction h with
  | refl => rfl
  | @call c' m w op _ hg hrun ih =>
    obtain ⟨m', w'⟩ := c'
    rcases (run_ok_tables op m m' w w' hrun).1 with he | ⟨s', f, rfl, hset⟩
    · show slot m'.m_beginFunctions s = _
      rw [he]
      exact ih
    · have hne : s ≠ s' := fun e => hg e.symm
      exact (setSlot_slot_other _ _ s' s f hset hne).trans ih
  | @caught c' m w op _ hg hrun ih =>
    obtain ⟨m', w'⟩ := c'
    have hmm : m' = m := run_emptyCall_machine op m m' w w' hrun
    subst hmm
    exact ih
  | outside w' _ ih => exact ih

theorem steps_keepsEnd (s : Int) (c c' : FSM X U T × World X U)
    (h : Steps (keepsEnd s) c c') :
    slot c'.1.m_endFunctions s = slot c.1.m_endFunctions s := by
  induction h with
  | refl => rfl
  | @call c' m w op _ hg hrun ih =>
    obtain ⟨m', w'⟩ := c'
    rcases (run_ok_tables op m m' w w' hrun).2.1 with he | ⟨s', f, rfl, hset⟩
    · show slot m'.m_endFunctions s = _
      rw [he]
      exact ih
    · have hne : s ≠ s' := fun e => hg e.symm
      exact (setSlot_slot_other _ _ s' s f hset hne).trans ih
  | @caught c' m w op _ hg hrun ih =>
    obtain ⟨m', w'⟩ := c'
    have hmm : m' = m := run_emptyCall_machine op m m' w w' hrun
    subst hmm
    exact ih
  | outside w' _ ih => exact ih

theorem steps_keepsUpdate (s : Int) (c c' : FSM X U T × World X U)
    (h : Steps (keepsUpdate s) c c') :
    slot c'.1.m_updateFunctions s = slot c.1.m_updateFunctions s := by
  induction h with
  | refl => rfl
  | @call c' m w op _ hg hrun ih =>
    obtain ⟨m', w'⟩ := c'
    rcases (run_ok_tables op m m' w w' hrun).2.2 with he | ⟨s', f, rfl, hset⟩
    · show slot m'.m_updateFunctions s = _
      rw [he]
      exact ih
    · have hne : s ≠ s' := fun e => hg e.symm
      exact (setSlot_slot_other _ _ s' s f hset hne).trans ih
  | @caught c' m w op _ hg hrun ih =>
    obtain ⟨m', w'⟩ := c'
    have hmm : m' = m := run_emptyCall_machine op m m' w w' hrun
    subst hmm
    exact ih
  | outside w' _ ih => exact ih


/-- C8: register h1 for state s and then h2 for the same state in the same
table.  The machine is the one that registering h2 alone gives, so h1 is gone
from it.  After any further history that does not register that slot again,
the slot holds h2, and the dispatch through it runs h2: SetState into s (begin
table), SetState out of s (end table), Update while in s (update table) leave
exactly the world that h2 and, for SetState, the other registered function of
the transition produce, in the order exit, entry. -/
theorem reregister_overrides (s : Int) :
    (∀ (m : FSM X U T) (h1 h2 : Handle Int X U) (w : World X U) (c1 c2 c : FSM X U T × World X U),
        SetBeginStateFunction m s (some h1) w = .ok c1 →
        SetBeginStateFunction c1.1 s (some h2) c1.2 = .ok c2 →
        Steps (keepsBegin s) c2 c →
          SetBeginStateFunction m s (some h2) w = .ok c2
            ∧ slot c.1.m_beginFunctions s = some (some h2)
            ∧ ∀ exitA, slot c.1.m_endFunctions (GetCurrentState c.1) = some (some exitA) →
                SetState c.1 s c.2
                  = .ok ({ c.1 with m_currentState := s },
                      h2 (GetCurrentState c.1) (GetCurrentState c.1)
                        (exitA s (GetCurrentState c.1) c.2)))
      ∧ (∀ (m : FSM X U T) (h1 h2 : Handle Int X U) (w : World X U)
          (c1 c2 c : FSM X U T × World X U),
        SetEndStateFunction m s (some h1) w = .ok c1 →
        SetEndStateFunction c1.1 s (some h2) c1.2 = .ok c2 →
        Steps (keepsEnd s) c2 c →
          SetEndStateFunction m s (some h2) w = .ok c2
            ∧ slot c.1.m_endFunctions s = some (some h2)
            ∧ (GetCurrentState c.1 = s →
                ∀ B enterB, slot c.1.m_beginFunctions B = some (some enterB) →
                  SetState c.1 B c.2
                    = .ok ({ c.1 with m_currentState := B }, enterB s s (h2 B s c.2))))
      ∧ (∀ (m : FSM X U T) (h1 h2 : Handle T X U) (w : World X U)
          (c1 c2 c : FSM X U T × World X U),
        SetUpdateFunction m s (some h1) w = .ok c1 →
        SetUpdateFunction c1.1 s (some h2) c1.2 = .ok c2 →
        Steps (keepsUpdate s) c2 c →
          SetUpdateFunction m s (some h2) w = .ok c2
            ∧ slot c.1.m_updateFunctions s = some (some h2)
            ∧ (GetCurrentState c.1 = s →
                ∀ dt, Update c.1 dt c.2 = .ok (c.1, h2 dt s c.2))) := by
  refine ⟨?_, ?_, ?_⟩
  · intro m h1 h2 w c1 c2 c hr1 hr2 hst
    simp only [SetBeginStateFunction] at hr1
    split at hr1
    · cases hr1
    · rename_i t1 ht1
      cases hr1
      simp only [SetBeginStateFunction] at hr2
      split at hr2
      · cases hr2
      · rename_i t2 ht2
        cases hr2
        have hslot : slot c.1.m_beginFunctions s = some (some h2) :=
          (steps_keepsBegin s _ c hst).trans (setSlot_slot_self _ _ s _ ht2)
        refine ⟨?_, hslot, ?_⟩
        · simp only [SetBeginStateFunction, setSlot_twice _ _ _ s _ _ ht1 ht2]
        · intro exitA hA
          exact SetState_registered c.1 s c.2 exitA h2 hA hslot
  · intro m h1 h2 w c1 c2 c hr1 hr2 hst
    simp only [SetEndStateFunction] at hr1
    split at hr1
    · cases hr1
    · rename_i t1 ht1
      cases hr1
      simp only [SetEndStateFunction] at hr2
      split at hr2
      · cases hr2
      · rename_i t2 ht2
        cases hr2
        have hslot : slot c.1.m_endFunctions s = some (some h2) :=
          (steps_keepsEnd s _ c hst).trans (setSlot_slot_self _ _ s _ ht2)
        refine ⟨?_, hslot, ?_⟩
        · simp only [SetEndStateFunction, setSlot_twice _ _ _ s _ _ ht1 ht2]
        · intro hcur B enterB hB
          have hcur' : c.1.m_currentState = s := hcur
          have hd := SetState_registered c.1 B c.2 h2 enterB (by rw [hcur']; exact hslot) hB
          rw [hcur'] at hd
          exact hd
  · intro m h1 h2 w c1 c2 c hr1 hr2 hst
    simp only [SetUpdateFunction] at hr1
    split at hr1
    · cases hr1
    · rename_i t1 ht1
      cases hr1
      simp only [SetUpdateFunction] at hr2
      split at hr2
      · cases hr2
      · rename_i t2 ht2
        cases hr2
        have hslot : slot c.1.m_updateFunctions s = some (some h2) :=
          (steps_keepsUpdate s _ c hst).trans (setSlot_slot_self _ _ s _ ht2)
        refine ⟨?_, hslot, ?_⟩
        · simp only [SetUpdateFunction, setSlot_twice _ _ _ s _ _ ht1 ht2]
        · intro hcur dt
          have hcur' : c.1.m_currentState = s := hcur
          have hd := Update_registered c.1 dt c.2 h2 (by rw [hcur']; exact hslot)
          rw [hcur'] at hd
          exact hd


/-- C8, concrete runs: with old registered and then new in the same slot, the
transition IDLE to RUNNING logs exit-idle, new (begin table) or new,
enter-running (end table), and Update(-5) in DONE runs the second update
function only. -/
theorem reregister_overrides_demo :
    (Res.config (SetState beginTwice.1 RUNNING beginTwice.2)).2.env = ["exit-idle", "new"]
      ∧ (Res.config (SetState endTwice.1 RUNNING endTwice.2)).2.env = ["new", "enter-running"]
      ∧ (Res.config (Update updateTwice.1 (-5) updateTwice.2)).2.env = [-5, -5]
      ∧ (∃ c, SetState beginTwice.1 RUNNING beginTwice.2 = .ok c)
      ∧ (∃ c, SetState endTwice.1 RUNNING endTwice.2 = .ok c)
      ∧ (∃ c, Update updateTwice.1 (-5) updateTwice.2 = .ok c) :=
  have hb := ((reregister_overrides RUNNING).1 demoFSM (say "old") (say "new") logWorld
    (Res.config (SetBeginStateFunction demoFSM RUNNING (some (say "old")) logWorld))
    beginTwice beginTwice rfl rfl (Steps.refl _)).2.2 (say "exit-idle") rfl
  have he := ((reregister_overrides IDLE).2.1 demoFSM (say "old") (say "new") logWorld
    (Res.config (SetEndStateFunction demoFSM IDLE (some (say "old")) logWorld))
    endTwice endTwice rfl rfl (Steps.refl _)).2.2 rfl RUNNING (say "enter-running") rfl
  have hu := ((reregister_overrides DONE).2.2 tickFSM tick tickTwice tickWorld
    (Res.config (SetUpdateFunction tickFSM DONE (some tick) tickWorld))
    updateTwice updateTwice rfl rfl (Steps.refl _)).2.2 rfl (-5)
  ⟨by rw [hb]; rfl, by rw [he]; rfl, by rw [hu]; rfl, ⟨_, hb⟩, ⟨_, he⟩, ⟨_, hu⟩⟩

/-! ## Failure of a dispatch -/

/-- C9: with three tables of SIZE slots, the current state A and the new state
B both in range, SetState(B) fails exactly when the end slot of A or the begin
slot of B is empty; the failure is then the call of an empty function; with
both slots registered it returns. -/
theorem SetState_fails_iff (SIZE : Int) (m : FSM X U T) (B : Int) (w : World X U)
    (hm : Sized SIZE.toNat m)
    (hA : 0 ≤ GetCurrentState m ∧ GetCurrentState m < SIZE) (hB : 0 ≤ B ∧ B < SIZE) :
    ((∃ e, SetState m B w = .error e)
        ↔ (slot m.m_endFunctions (GetCurrentState m) = some none
            ∨ slot m.m_beginFunctions B = some none))
      ∧ (∀ f c, SetState m B w = .error (f, c) → f = Fault.emptyCall)
      ∧ (∀ exitA enterB, slot m.m_endFunctions (GetCurrentState m) = some (some exitA) →
          slot m.m_beginFunctions B = some (some enterB) → ∃ c, SetState m B w = .ok c) := by
  obtain ⟨hb, he, _⟩ := hm
  unfold GetCurrentState at hA ⊢
  obtain ⟨x, hx⟩ := slot_inRange m.m_endFunctions m.m_currentState hA.1 (by omega)
  obtain ⟨y, hy⟩ := slot_inRange m.m_beginFunctions B hB.1 (by omega)
  cases x <;> cases y <;> simp [SetState, hx, hy]

/-- C9, concrete run: demoFSM has no begin function for DONE, so SetState(DONE)
from IDLE fails. -/
theorem SetState_fails_iff_demo :
    Sized (3 : Int).toNat demoFSM
      ∧ (0 ≤ GetCurrentState demoFSM ∧ GetCurrentState demoFSM < 3)
      ∧ (0 ≤ DONE ∧ DONE < 3)
      ∧ slot demoFSM.m_beginFunctions DONE = some none
      ∧ ∃ e, SetState demoFSM DONE logWorld = .error e :=
  ⟨⟨rfl, rfl, rfl⟩, ⟨by decide, by decide⟩, ⟨by decide, by decide⟩, rfl,
    (SetState_fails_iff 3 demoFSM DONE logWorld ⟨rfl, rfl, rfl⟩ ⟨by decide, by decide⟩
      ⟨by decide, by decide⟩).1.2 (Or.inr rfl)⟩

/-- C10: with an update table of SIZE slots and the current state S in range,
Update(dt) fails exactly when the update slot of S is empty, by calling an
empty function; in particular it does not return, so it is no silent no-op;
with the slot registered it returns. -/
theorem Update_fails_iff (SIZE : Int) (m : FSM X U T) (dt : T) (w : World X U)
    (hm : Sized SIZE.toNat m)
    (hS : 0 ≤ GetCurrentState m ∧ GetCurrentState m < SIZE) :
    ((∃ e, Update m dt w = .error e)
        ↔ slot m.m_updateFunctions (GetCurrentState m) = some none)
      ∧ (slot m.m_updateFunctions (GetCurrentState m) = some none →
          Update m dt w = .error (Fault.emptyCall, m, w) ∧ ∀ c, Update m dt w ≠ .ok c)
      ∧ (∀ updateS, slot m.m_updateFunctions (GetCurrentState m) = some (some updateS) →
          ∃ c, Update m dt w = .ok c) := by
  obtain ⟨_, _, hu⟩ := hm
  unfold GetCurrentState at hS ⊢
  obtain ⟨x, hx⟩ := slot_inRange m.m_updateFunctions m.m_currentState hS.1 (by omega)
  cases x <;> simp [Update, hx]

/-- C10, concrete run: three states, a machine constructed in DONE with no
update function registered; Update fails on the empty slot. -/
theorem Update_fails_iff_demo :
    Sized (3 : Int).toNat (ConstructWith 3 DONE tickWorld : FSM Unit (List Int) Int × _).1
      ∧ slot (ConstructWith 3 DONE tickWorld : FSM Unit (List Int) Int × _).1.m_updateFunctions
          DONE = some none
      ∧ (∃ e, Update (ConstructWith 3 DONE tickWorld : FSM Unit (List Int) Int × _).1 1 tickWorld
          = .error e)
      ∧ ∀ c, Update (ConstructWith 3 DONE tickWorld : FSM Unit (List Int) Int × _).1 1 tickWorld
          ≠ .ok c :=
  have h := Update_fails_iff 3 (ConstructWith 3 DONE tickWorld : FSM Unit (List Int) Int × _).1
    (1 : Int) tickWorld ⟨rfl, rfl, rfl⟩ ⟨by decide, by decide⟩
  ⟨⟨rfl, rfl, rfl⟩, rfl, h.1.2 rfl, (h.2.1 rfl).2⟩


/-! ## Setters and freshly constructed tables -/

/-- C11: for a state s in range of tables with SIZE slots and a function f, each
setter returns, leaving the world as it was (no callable ran, no record
touched); in its own table the slot of s now holds f and every other slot is as
before; the other two tables, the current state and m_data are unchanged. -/
theorem setters_frame (SIZE : Int) (m : FSM X U T) (s : Int) (w : World X U)
    (hm : Sized SIZE.toNat m) (hs : 0 ≤ s ∧ s < SIZE) :
    (∀ f : Option (Handle Int X U), ∃ m', SetBeginStateFunction m s f w = .ok (m', w)
        ∧ slot m'.m_beginFunctions s = some f
        ∧ (∀ j, j ≠ s → slot m'.m_beginFunctions j = slot m.m_beginFunctions j)
        ∧ m'.m_endFunctions = m.m_endFunctions ∧ m'.m_updateFunctions = m.m_updateFunctions
        ∧ GetCurrentState m' = GetCurrentState m ∧ m'.m_data = m.m_data)
      ∧ (∀ f : Option (Handle Int X U), ∃ m', SetEndStateFunction m s f w = .ok (m', w)
        ∧ slot m'.m_endFunctions s = some f
        ∧ (∀ j, j ≠ s → slot m'.m_endFunctions j = slot m.m_endFunctions j)
        ∧ m'.m_beginFunctions = m.m_beginFunctions ∧ m'.m_updateFunctions = m.m_updateFunctions
        ∧ GetCurrentState m' = GetCurrentState m ∧ m'.m_data = m.m_data)
      ∧ (∀ f : Option (Handle T X U), ∃ m', SetUpdateFunction m s f w = .ok (m', w)
        ∧ slot m'.m_updateFunctions s = some f
        ∧ (∀ j, j ≠ s → slot m'.m_updateFunctions j = slot m.m_updateFunctions j)
        ∧ m'.m_beginFunctions = m.m_beginFunctions ∧ m'.m_endFunctions = m.m_endFunctions
        ∧ GetCurrentState m' = GetCurrentState m ∧ m'.m_data = m.m_data) := by
  obtain ⟨hb, he, hu⟩ := hm
  have hneg : ¬ s < 0 := by omega
  have hlt : s.toNat < SIZE.toNat := by omega
  refine ⟨?_, ?_, ?_⟩
  · intro f
    have hset : setSlot m.m_beginFunctions s f = some (m.m_beginFunctions.set s.toNat f) := by
      simp [setSlot, hneg, hb, hlt]
    refine ⟨{ m with m_beginFunctions := m.m_beginFunctions.set s.toNat f }, ?_,
      setSlot_slot_self _ _ s f hset, ?_, rfl, rfl, rfl, rfl⟩
    · simp [SetBeginStateFunction, hset]
    · intro j hj
      exact setSlot_slot_other _ _ s j f hset hj
  · intro f
    have hset : setSlot m.m_endFunctions s f = some (m.m_endFunctions.set s.toNat f) := by
      simp [setSlot, hneg, he, hlt]
    refine ⟨{ m with m_endFunctions := m.m_endFunctions.set s.toNat f }, ?_,
      setSlot_slot_self _ _ s f hset, ?_, rfl, rfl, rfl, rfl⟩
    · simp [SetEndStateFunction, hset]
    · intro j hj
      exact setSlot_slot_other _ _ s j f hset hj
  · intro f
    have hset : setSlot m.m_updateFunctions s f = some (m.m_updateFunctions.set s.toNat f) := by
      simp [setSlot, hneg, hu, hlt]
    refine ⟨{ m with m_updateFunctions := m.m_updateFunctions.set s.toNat f }, ?_,
      setSlot_slot_self _ _ s f hset, ?_, rfl, rfl, rfl, rfl⟩
    · simp [SetUpdateFunction, hset]
    · intro j hj
      exact setSlot_slot_other _ _ s j f hset hj

/-- C11, concrete run: on demoFSM (three states) a begin function is registered
for DONE; the slots of IDLE and RUNNING keep what they held. -/
theorem setters_frame_demo :
    Sized (3 : Int).toNat demoFSM ∧ (0 ≤ DONE ∧ DONE < 3)
      ∧ ∃ m', SetBeginStateFunction demoFSM DONE (some (say "enter-done")) logWorld
            = .ok (m', logWorld)
          ∧ slot m'.m_beginFunctions DONE = some (some (say "enter-done"))
          ∧ slot m'.m_beginFunctions RUNNING = slot demoFSM.m_beginFunctions RUNNING
          ∧ slot m'.m_beginFunctions IDLE = slot demoFSM.m_beginFunctions IDLE
          ∧ m'.m_endFunctions = demoFSM.m_endFunctions
          ∧ GetCurrentState m' = IDLE :=
  have h := (setters_frame 3 demoFSM DONE logWorld ⟨rfl, rfl, rfl⟩
    ⟨by decide, by decide⟩).1 (some (say "enter-done"))
  ⟨⟨rfl, rfl, rfl⟩, ⟨by decide, by decide⟩,
    h.elim fun m' hm' =>
      ⟨m', hm'.1, hm'.2.1, hm'.2.2.1 RUNNING (by decide), hm'.2.2.1 IDLE (by decide),
        hm'.2.2.2.1, hm'.2.2.2.2.2.1⟩⟩

theorem pushEmpty_tables (n : Nat) (m : FSM X U T) :
    (pushEmpty n m).m_beginFunctions = m.m_beginFunctions ++ List.replicate n none
      ∧ (pushEmpty n m).m_endFunctions = m.m_endFunctions ++ List.replicate n none
      ∧ (pushEmpty n m).m_updateFunctions = m.m_updateFunctions ++ List.replicate n none := by
  induction n generalizing m with
  | zero => simp [pushEmpty]
  | succ k ih =>
    obtain ⟨h1, h2, h3⟩ := ih
      { m with
        m_beginFunctions := m.m_beginFunctions ++ [none]
        m_endFunctions := m.m_endFunctions ++ [none]
        m_updateFunctions := m.m_updateFunctions ++ [none] }
    simp only [pushEmpty]
    rw [h1, h2, h3]
    simp [List.replicate_succ]

theorem slot_replicate {H : Type} (n : Nat) (i : Int) (h0 : 0 ≤ i) (h1 : i.toNat < n) :
    slot (List.replicate n (none : Option H)) i = some none := by
  have hneg : ¬ i < 0 := by omega
  simp [slot, hneg, List.getElem?_replicate, h1]

/-- The tables of a machine as either constructor leaves them. -/
theorem ConstructWith_tables (SIZE s : Int) (w : World X U) :
    (ConstructWith SIZE s w : FSM X U T × World X U).1.m_beginFunctions
        = List.replicate SIZE.toNat none
      ∧ (ConstructWith SIZE s w : FSM X U T × World X U).1.m_endFunctions
        = List.replicate SIZE.toNat none
      ∧ (ConstructWith SIZE s w : FSM X U T × World X U).1.m_updateFunctions
        = List.replicate SIZE.toNat none := by
  have h := pushEmpty_tables SIZE.toNat (blank : FSM X U T)
  simpa [ConstructWith, blank] using h


/-- C12: for a number SIZE of states, right after FSM(startingState) and right
after FSM() each of the three tables has exactly SIZE slots; the slot of every
state value 0..SIZE-1 exists and is empty, and no other index has a slot. -/
theorem Construct_tables_empty (SIZE s : Int) (w : World X U) (m : FSM X U T)
    (hN : 0 ≤ SIZE)
    (hm : m = (ConstructWith SIZE s w : FSM X U T × World X U).1
      ∨ m = (Construct SIZE w : FSM X U T × World X U).1) :
    ((m.m_beginFunctions.length : Int) = SIZE ∧ (m.m_endFunctions.length : Int) = SIZE
        ∧ (m.m_updateFunctions.length : Int) = SIZE)
      ∧ (∀ i, 0 ≤ i → i < SIZE →
          slot m.m_beginFunctions i = some none ∧ slot m.m_endFunctions i = some none
            ∧ slot m.m_updateFunctions i = some none)
      ∧ (∀ i, i < 0 ∨ SIZE ≤ i →
          slot m.m_beginFunctions i = none ∧ slot m.m_endFunctions i = none
            ∧ slot m.m_updateFunctions i = none) := by
  have ht : m.m_beginFunctions = List.replicate SIZE.toNat none
      ∧ m.m_endFunctions = List.replicate SIZE.toNat none
      ∧ m.m_updateFunctions = List.replicate SIZE.toNat none := by
    rcases hm with rfl | rfl
    · exact ConstructWith_tables SIZE s w
    · exact ConstructWith_tables SIZE 0 w
  obtain ⟨hb, he, hu⟩ := ht
  rw [hb, he, hu]
  refine ⟨?_, ?_, ?_⟩
  · simp only [List.length_replicate]
    omega
  · intro i h0 h1
    have hlt : i.toNat < SIZE.toNat := by omega
    exact ⟨slot_replicate _ i h0 hlt, slot_replicate _ i h0 hlt, slot_replicate _ i h0 hlt⟩
  · intro i hi
    simp only [slot_none_iff, List.length_replicate]
    omega

/-- C12, concrete run: three states; both constructors give three tables of
three empty slots. -/
theorem Construct_tables_empty_demo :
    (0 : Int) ≤ 3
      ∧ (ConstructWith 3 DONE logWorld : FSM Unit (List String) Int × _).1.m_beginFunctions.length
          = 3
      ∧ (∀ i, 0 ≤ i → i < 3 →
          slot (ConstructWith 3 DONE logWorld
              : FSM Unit (List String) Int × _).1.m_beginFunctions i = some none
            ∧ slot (ConstructWith 3 DONE logWorld
              : FSM Unit (List String) Int × _).1.m_endFunctions i = some none
            ∧ slot (ConstructWith 3 DONE logWorld
              : FSM Unit (List String) Int × _).1.m_updateFunctions i = some none)
      ∧ (∀ i, 0 ≤ i → i < 3 →
          slot (Construct 3 logWorld
              : FSM Unit (List String) Int × _).1.m_beginFunctions i = some none
            ∧ slot (Construct 3 logWorld
              : FSM Unit (List String) Int × _).1.m_endFunctions i = some none
            ∧ slot (Construct 3 logWorld
              : FSM Unit (List String) Int × _).1.m_updateFunctions i = some none) :=
  ⟨by decide, rfl,
    (Construct_tables_empty 3 DONE logWorld _ (by decide) (Or.inl rfl)).2.1,
    (Construct_tables_empty 3 DONE logWorld _ (by decide) (Or.inr rfl)).2.1⟩

/-! ## Arguments and timing of a transition -/

/-- C13, the code at a failing input: three states, the machine in IDLE (0),
SetState(RUNNING) with RUNNING = 1.  Each callable logs the pair (argument,
current state read).  The end function of IDLE runs first and receives 1, the
new state, where the interface comment names its parameter previousState; the
begin function of RUNNING runs second and receives 0, the previous state, where
the comment names its parameter newState. -/
theorem SetState_arguments_swapped :
    slot watchFSM.m_endFunctions IDLE = some (some observe)
      ∧ slot watchFSM.m_beginFunctions RUNNING = some (some observe)
      ∧ GetCurrentState watchFSM = IDLE
      ∧ (∃ c, SetState watchFSM RUNNING watchWorld = .ok c)
      ∧ ((Res.config (SetState watchFSM RUNNING watchWorld)).2.env.map fun e => e.1)
          = [RUNNING, IDLE]
      ∧ ((Res.config (SetState watchFSM RUNNING watchWorld)).2.env.map fun e => e.1)
          ≠ [IDLE, RUNNING] :=
  ⟨rfl, rfl, rfl, ⟨_, rfl⟩, rfl, by decide⟩

/-- C14: during SetState(B) from state A with both functions registered, the
end function and then the begin function are each run with A as the current
state they can read; the state B is only in the machine that SetState
returns. -/
theorem SetState_state_during_calls (m : FSM X U T) (A B : Int) (w : World X U)
    (exitA enterB : Handle Int X U) (hcur : GetCurrentState m = A)
    (hA : slot m.m_endFunctions A = some (some exitA))
    (hB : slot m.m_beginFunctions B = some (some enterB)) :
    ∃ m', SetState m B w = .ok (m', enterB A A (exitA B A w))
      ∧ GetCurrentState m = A ∧ GetCurrentState m' = B := by
  have hcur' : m.m_currentState = A := hcur
  have h := SetState_registered m B w exitA enterB (by rw [hcur']; exact hA) hB
  rw [hcur'] at h
  exact ⟨_, h, hcur, rfl⟩

/-- C14, concrete run: leaving IDLE for RUNNING, both callables log the current
state they read, IDLE in both calls; afterwards the machine is in RUNNING. -/
theorem SetState_state_during_calls_demo :
    GetCurrentState watchFSM = IDLE
      ∧ slot watchFSM.m_endFunctions IDLE = some (some observe)
      ∧ slot watchFSM.m_beginFunctions RUNNING = some (some observe)
      ∧ ((Res.config (SetState watchFSM RUNNING watchWorld)).2.env.map fun e => e.2)
          = [IDLE, IDLE]
      ∧ GetCurrentState (Res.config (SetState watchFSM RUNNING watchWorld)).1 = RUNNING
      ∧ ∃ m', SetState watchFSM RUNNING watchWorld
            = .ok (m', observe IDLE IDLE (observe RUNNING IDLE watchWorld))
          ∧ GetCurrentState watchFSM = IDLE ∧ GetCurrentState m' = RUNNING :=
  ⟨rfl, rfl, rfl, rfl, rfl,
    SetState_state_during_calls watchFSM IDLE RUNNING watchWorld observe observe rfl rfl rfl⟩

/-- C15: a failing SetState(B) from state A is not undone.  If the end function
of A is registered and the begin slot of B is empty, the call fails on the
empty function after the end function of A has run on argument B: the world
carries its effect, and the machine, still in A, is unchanged.  If the end slot
of A is empty, the call fails at once: world and machine are as before. -/
theorem SetState_failure_not_atomic (m : FSM X U T) (B : Int) (w : World X U) :
    (∀ exitA, slot m.m_endFunctions (GetCurrentState m) = some (some exitA) →
        slot m.m_beginFunctions B = some none →
          SetState m B w = .error (Fault.emptyCall, m, exitA B (GetCurrentState m) w))
      ∧ (slot m.m_endFunctions (GetCurrentState m) = some none →
          SetState m B w = .error (Fault.emptyCall, m, w)) := by
  unfold GetCurrentState
  constructor
  · intro exitA hA hB
    simp [SetState, hA, hB, GetCurrentState]
  · intro hA
    simp [SetState, hA]

/-- C15, concrete runs: demoFSM has an end function for IDLE and no begin
function for DONE, so SetState(DONE) fails with exit-idle logged and the state
still IDLE; a fresh machine has no end function, so SetState fails with an
empty log. -/
theorem SetState_failure_not_atomic_demo :
    SetState demoFSM DONE logWorld
        = .error (Fault.emptyCall, demoFSM, say "exit-idle" DONE IDLE logWorld)
      ∧ (say "exit-idle" DONE IDLE logWorld : World Unit (List String)).env = ["exit-idle"]
      ∧ GetCurrentState demoFSM = IDLE
      ∧ SetState (ConstructWith 3 IDLE logWorld : FSM Unit (List String) Int × _).1 RUNNING logWorld
        = .error (Fault.emptyCall,
            (ConstructWith 3 IDLE logWorld : FSM Unit (List String) Int × _).1, logWorld) :=
  ⟨(SetState_failure_not_atomic demoFSM DONE logWorld).1 (say "exit-idle") rfl rfl, rfl, rfl,
    (SetState_failure_not_atomic
      (ConstructWith 3 IDLE logWorld : FSM Unit (List String) Int × _).1 RUNNING logWorld).2 rfl⟩


/-- C16: on a machine whose m_data points to a record, LoadFSM(r1) returns and
leaves the current state at what the own record held, hence not at the state of
r1 when the two differ; a LoadFSM(r2) that follows returns with the current
state of r1 and with the own record equal to r2. -/
theorem LoadFSM_one_call_late (m : FSM X U T) (p q1 q2 : Nat) (w : World X U)
    (own r1 : FSMData X)
    (hp : m.m_data = some p) (hown : w.heap p = some own) (h1 : w.heap q1 = some r1) :
    ∃ m1 w1, LoadFSM m q1 w = .ok (m1, w1)
      ∧ GetCurrentState m1 = own.currentState
      ∧ (own.currentState ≠ r1.currentState → GetCurrentState m1 ≠ r1.currentState)
      ∧ ∀ r2, w1.heap q2 = some r2 →
          ∃ m2 w2, LoadFSM m1 q2 w1 = .ok (m2, w2)
            ∧ GetCurrentState m2 = r1.currentState ∧ w2.heap p = some r2 := by
  refine ⟨{ m with m_currentState := own.currentState },
    { w with heap := fun a => if a = p then some r1 else w.heap a }, ?_, rfl, ?_, ?_⟩
  · simp [LoadFSM, hp, hown, h1]
  · intro h
    exact h
  · intro r2 h2
    refine ⟨{ m with m_currentState := r1.currentState },
      { w with heap := fun a => if a = p then some r2 else
          (if a = p then some r1 else w.heap a) }, ?_, rfl, ?_⟩
    · have h2' : (if q2 = p then some r1 else w.heap q2) = some r2 := h2
      simp only [LoadFSM, hp, if_true, h2']
    · simp

/-- C16, concrete run: the machine owns the record at address 0 (IDLE); it loads
the record at address 1 (RUNNING) and stays in IDLE; it then loads the record
at address 2 (DONE) and is in RUNNING, its record now being that of DONE. -/
theorem LoadFSM_one_call_late_demo :
    lateFSM.m_data = some 0
      ∧ threeRecords.heap 0 = some { currentState := IDLE, rest := [] }
      ∧ threeRecords.heap 1 = some { currentState := RUNNING, rest := [1] }
      ∧ GetCurrentState (Res.config (LoadFSM lateFSM 1 threeRecords)).1 = IDLE
      ∧ (Res.config (LoadFSM lateFSM 1 threeRecords)).2.heap 2
          = some { currentState := DONE, rest := [2] }
      ∧ GetCurrentState (Res.config (LoadFSM (Res.config (LoadFSM lateFSM 1 threeRecords)).1 2
          (Res.config (LoadFSM lateFSM 1 threeRecords)).2)).1 = RUNNING
      ∧ ∃ m1 w1, LoadFSM lateFSM 1 threeRecords = .ok (m1, w1)
          ∧ GetCurrentState m1 = IDLE
          ∧ (IDLE ≠ RUNNING → GetCurrentState m1 ≠ RUNNING)
          ∧ ∀ r2, w1.heap 2 = some r2 →
              ∃ m2 w2, LoadFSM m1 2 w1 = .ok (m2, w2)
                ∧ GetCurrentState m2 = RUNNING ∧ w2.heap 0 = some r2 :=
  ⟨rfl, rfl, rfl, rfl, rfl, rfl,
    LoadFSM_one_call_late lateFSM 0 1 2 threeRecords { currentState := IDLE, rest := [] }
      { currentState := RUNNING, rest := [1] } rfl rfl rfl⟩

/-- C17: with the end function and the begin function of the current state A
both registered, SetState(A) returns after running the end function of A on
argument A and then the begin function of A on argument A; the machine is as
before, in state A. -/
theorem SetState_self_transition (m : FSM X U T) (A : Int) (w : World X U)
    (exitA enterA : Handle Int X U) (hcur : GetCurrentState m = A)
    (hE : slot m.m_endFunctions A = some (some exitA))
    (hB : slot m.m_beginFunctions A = some (some enterA)) :
    SetState m A w = .ok (m, enterA A A (exitA A A w))
      ∧ ∀ c, SetState m A w = .ok c → GetCurrentState c.1 = A := by
  have hcur' : m.m_currentState = A := hcur
  have h := SetState_registered m A w exitA enterA (by rw [hcur']; exact hE) hB
  rw [hcur'] at h
  have hm : ({ m with m_currentState := A } : FSM X U T) = m := by
    cases m
    cases hcur'
    rfl
  rw [hm] at h
  refine ⟨h, ?_⟩
  intro c hc
  rw [h] at hc
  cases hc
  exact hcur

/-- C17, concrete run: in IDLE with both functions of IDLE registered,
SetState(IDLE) runs both, each on argument IDLE, and the machine stays in
IDLE. -/
theorem SetState_self_transition_demo :
    GetCurrentState watchFSM = IDLE
      ∧ slot watchFSM.m_endFunctions IDLE = some (some observe)
      ∧ slot watchFSM.m_beginFunctions IDLE = some (some observe)
      ∧ (Res.config (SetState watchFSM IDLE watchWorld)).2.env = [(IDLE, IDLE), (IDLE, IDLE)]
      ∧ SetState watchFSM IDLE watchWorld
          = .ok (watchFSM, observe IDLE IDLE (observe IDLE IDLE watchWorld)) :=
  ⟨rfl, rfl, rfl, rfl,
    (SetState_self_transition watchFSM IDLE watchWorld observe observe rfl rfl rfl).1⟩


/-! ## Table sizes along histories -/

/-- Along any history the three tables keep the size they had. -/
theorem steps_sized (G : Op X U T → FSM X U T → World X U → Prop) (n : Nat)
    (c0 c : FSM X U T × World X U) (h : Steps G c0 c) (h0 : Sized n c0.1) : Sized n c.1 := by
  induction h with
  | refl => exact h0
  | @call c' m w op _ _ hrun ih =>
    obtain ⟨m', w'⟩ := c'
    exact run_ok_sized n op m m' w w' ih hrun
  | @caught c' m w op _ _ hrun ih =>
    obtain ⟨m', w'⟩ := c'
    have hmm : m' = m := run_emptyCall_machine op m m' w w' hrun
    subst hmm
    exact ih
  | outside w' _ ih => exact ih

/-- With tables of SIZE slots, the current state and the state argument in
range, no member function indexes a table outside its bounds. -/
theorem run_inBounds (SIZE : Int) (op : Op X U T) (m : FSM X U T) (w : World X U)
    (hm : Sized SIZE.toNat m) (hc : 0 ≤ m.m_currentState ∧ m.m_currentState < SIZE)
    (ha : Op.argInRange SIZE op) (c : FSM X U T × World X U) :
    op.run m w ≠ .error (Fault.outOfRange, c) := by
  obtain ⟨hb, he, hu⟩ := hm
  intro h
  cases op with
  | setState s =>
    obtain ⟨x, hx⟩ := slot_inRange m.m_endFunctions m.m_currentState hc.1 (by omega)
    obtain ⟨y, hy⟩ := slot_inRange m.m_beginFunctions s ha.1 (by have := ha.2; omega)
    simp only [Op.run, SetState, hx, hy] at h
    cases x <;> cases y <;> simp at h
  | update dt =>
    obtain ⟨x, hx⟩ := slot_inRange m.m_updateFunctions m.m_currentState hc.1 (by omega)
    simp only [Op.run, Update, hx] at h
    cases x <;> simp at h
  | save =>
    simp only [Op.run, SaveFSM] at h
    split at h
    · cases h
    · split at h <;> cases h
  | load p =>
    simp only [Op.run, LoadFSM] at h
    split at h
    · cases h
    · split at h
      · cases h
      · split at h <;> cases h
  | setBegin s f =>
    have h0 : ¬ s < 0 := by have := ha.1; omega
    have h1 : s.toNat < m.m_beginFunctions.length := by have := ha.1; have := ha.2; omega
    simp [Op.run, SetBeginStateFunction, setSlot, h0, h1] at h
  | setEnd s f =>
    have h0 : ¬ s < 0 := by have := ha.1; omega
    have h1 : s.toNat < m.m_endFunctions.length := by have := ha.1; have := ha.2; omega
    simp [Op.run, SetEndStateFunction, setSlot, h0, h1] at h
  | setUpdate s f =>
    have h0 : ¬ s < 0 := by have := ha.1; omega
    have h1 : s.toNat < m.m_updateFunctions.length := by have := ha.1; have := ha.2; omega
    simp [Op.run, SetUpdateFunction, setSlot, h0, h1] at h
  | assign p =>
    simp only [Op.run, assignData] at h
    cases h

/-- The configuration `strayConfig` is reached from the default constructor by
setting `m_data` and loading. -/
theorem strayConfig_reached :
    Steps anyCall (Construct 3 strayWorld : FSM (List Int) Unit Int × _) strayConfig := by
  have s0 : Steps anyCall (Construct 3 strayWorld : FSM (List Int) Unit Int × _)
      ((Construct 3 strayWorld : FSM (List Int) Unit Int × _).1, strayWorld) := Steps.refl _
  have s1 : Steps anyCall (Construct 3 strayWorld : FSM (List Int) Unit Int × _)
      ({ (Construct 3 strayWorld : FSM (List Int) Unit Int × _).1 with m_data := some 0 },
        strayWorld) :=
    Steps.call (Op.assign 0) s0 trivial rfl
  exact Steps.call (Op.load 0) s1 trivial rfl

/-- C18, as stated, fails on the code: three states, default construction,
m_data pointed at a record holding 5, LoadFSM.  The three tables still have
three slots each, but the current state is 5, so the tables indexed by the
current state have no slot there and Update runs outside the bounds. -/
theorem currentState_index_escapes :
    Steps anyCall (Construct 3 strayWorld : FSM (List Int) Unit Int × _) strayConfig
      ∧ Sized 3 strayConfig.1
      ∧ GetCurrentState strayConfig.1 = 5
      ∧ slot strayConfig.1.m_updateFunctions (GetCurrentState strayConfig.1) = none
      ∧ slot strayConfig.1.m_endFunctions (GetCurrentState strayConfig.1) = none
      ∧ Update strayConfig.1 1 strayConfig.2
          = .error (Fault.outOfRange, strayConfig.1, strayConfig.2)
      ∧ SetState strayConfig.1 IDLE strayConfig.2
          = .error (Fault.outOfRange, strayConfig.1, strayConfig.2) :=
  ⟨strayConfig_reached, ⟨rfl, rfl, rfl⟩, rfl, rfl, rfl, rfl, rfl⟩

/-- C18, amended: in every configuration reached from either constructor by
any history of SetState, Update, SaveFSM, LoadFSM, the setters and the
assignment of m_data, each of the three tables has exactly SIZE slots, so every
state value in [0, SIZE) has a slot in each table; and whenever the current
state lies in [0, SIZE), no call whose state argument lies in [0, SIZE) indexes
a table outside its bounds. -/
theorem tables_keep_size (SIZE s : Int) (w0 : World X U) (c0 : FSM X U T × World X U)
    (m : FSM X U T) (w : World X U) (hN : 0 ≤ SIZE)
    (hc : c0 = ConstructWith SIZE s w0 ∨ c0 = Construct SIZE w0)
    (h : Steps anyCall c0 (m, w)) :
    ((m.m_beginFunctions.length : Int) = SIZE ∧ (m.m_endFunctions.length : Int) = SIZE
        ∧ (m.m_updateFunctions.length : Int) = SIZE)
      ∧ (∀ i, 0 ≤ i → i < SIZE →
          (∃ x, slot m.m_beginFunctions i = some x) ∧ (∃ x, slot m.m_endFunctions i = some x)
            ∧ (∃ x, slot m.m_updateFunctions i = some x))
      ∧ (0 ≤ GetCurrentState m → GetCurrentState m < SIZE →
          ∀ (op : Op X U T) (w' : World X U) (c : FSM X U T × World X U),
            Op.argInRange SIZE op → op.run m w' ≠ .error (Fault.outOfRange, c)) := by
  have h0 : Sized SIZE.toNat c0.1 := by
    rcases hc with rfl | rfl
    · exact ConstructWith_sized SIZE s w0
    · exact Construct_sized SIZE w0
  have hs : Sized SIZE.toNat m := steps_sized anyCall SIZE.toNat c0 (m, w) h h0
  obtain ⟨hb, he, hu⟩ := hs
  refine ⟨⟨by omega, by omega, by omega⟩, ?_, ?_⟩
  · intro i hi0 hi1
    exact ⟨slot_inRange _ i hi0 (by omega), slot_inRange _ i hi0 (by omega),
      slot_inRange _ i hi0 (by omega)⟩
  · intro hc0 hc1 op w' c ha
    exact run_inBounds SIZE op m w' ⟨hb, he, hu⟩ ⟨hc0, hc1⟩ ha c

/-- C18 amended, concrete run: three states, constructed in IDLE, two functions
registered (the machine demoFSM): three slots per table, and SetState(DONE),
though it fails on an empty function, stays inside the bounds. -/
theorem tables_keep_size_demo :
    (0 : Int) ≤ 3
      ∧ Steps anyCall (ConstructWith 3 IDLE logWorld : FSM Unit (List String) Int × _)
          (demoFSM, logWorld)
      ∧ demoFSM.m_beginFunctions.length = 3
      ∧ (∀ i, 0 ≤ i → i < 3 → ∃ x, slot demoFSM.m_updateFunctions i = some x)
      ∧ ∀ c, SetState demoFSM DONE logWorld ≠ .error (Fault.outOfRange, c) := by
  have s0 : Steps anyCall (ConstructWith 3 IDLE logWorld : FSM Unit (List String) Int × _)
      ((ConstructWith 3 IDLE logWorld : FSM Unit (List String) Int × _).1, logWorld) :=
    Steps.refl _
  have s1 : Steps anyCall (ConstructWith 3 IDLE logWorld : FSM Unit (List String) Int × _)
      (Res.config (SetEndStateFunction
        (ConstructWith 3 IDLE logWorld : FSM Unit (List String) Int × _).1 IDLE
        (some (say "exit-idle")) logWorld)) :=
    Steps.call (Op.setEnd IDLE (some (say "exit-idle"))) s0 trivial rfl
  have s2 : Steps anyCall (ConstructWith 3 IDLE logWorld : FSM Unit (List String) Int × _)
      (demoFSM, logWorld) :=
    Steps.call (Op.setBegin RUNNING (some (say "enter-running"))) s1 trivial rfl
  have h := tables_keep_size 3 IDLE logWorld _ demoFSM logWorld (by decide) (Or.inl rfl) s2
  exact ⟨by decide, s2, rfl, fun i h0 h1 => (h.2.1 i h0 h1).2.2,
    fun c => h.2.2 (by decide) (by decide) (Op.setState DONE) logWorld c ⟨by decide, by decide⟩⟩

end FSMSpec
